import Mathlib

/-!
Shallow embedding of the nordvpn-tui sources (src/nord.rs and src/app.rs).

Rust strings are modelled as lists of characters (`Str`).  The Rust string
primitives used by the sources (`contains`, `replace`, `split`, `lines`)
are modelled below; `replace` and `split` are written with an explicit fuel
argument (structural recursion on the fuel) so that every definition
evaluates inside the kernel; fuel `s.length` always suffices, and the
wrappers `replaceAll` / `splitOn` instantiate it that way.

Fallible Rust operations (`expect` on a failed lookup, out-of-bounds
indexing) are modelled with `Option`, `none` marking the abort.
-/

namespace NordTui

/-- Rust strings as lists of characters. -/
abbrev Str := List Char

/-- Rust `str::contains` (substring containment). -/
def containsSub : Str → Str → Bool
  | [], pat => pat.isEmpty
  | c :: t, pat => pat.isPrefixOf (c :: t) || containsSub t pat

/-- Fuel-indexed worker for `replaceAll`.  One unit of fuel is spent per
consumed character, so fuel `s.length` is always enough. -/
def replaceAllF (pat rep : Str) : Nat → Str → Str
  | _, [] => []
  | 0, s => s
  | f + 1, c :: t =>
    if pat ≠ [] ∧ pat.isPrefixOf (c :: t) then
      rep ++ replaceAllF pat rep f (List.drop pat.length (c :: t))
    else
      c :: replaceAllF pat rep f t

/-- Rust `str::replace`: replace every non-overlapping occurrence of `pat`
by `rep`, left to right.  (Every call site in the sources passes a
non-empty pattern.) -/
def replaceAll (pat rep s : Str) : Str :=
  replaceAllF pat rep s.length s

/-- Fuel-indexed worker for `splitOn`; fuel `s.length` always suffices. -/
def splitOnF (sep : Str) : Nat → Str → List Str
  | _, [] => [[]]
  | 0, s => [s]
  | f + 1, c :: t =>
    if sep ≠ [] ∧ sep.isPrefixOf (c :: t) then
      [] :: splitOnF sep f (List.drop sep.length (c :: t))
    else
      match splitOnF sep f t with
      | [] => [[c]]
      | h :: r => (c :: h) :: r

/-- Rust `str::split` on a (non-empty) separator string, collected into a
vector: the list of separated segments, empty segments included. -/
def splitOn (sep s : Str) : List Str :=
  splitOnF sep s.length s

/-- Rust `str::lines`: split on newline, drop a final empty segment
(trailing newline), and strip one trailing carriage return per line. -/
def lines (s : Str) : List Str :=
  let parts := splitOn ("\n".data) s
  let parts := if parts.getLast? = some [] then parts.dropLast else parts
  parts.map (fun l => if l.getLast? = some '\r' then l.dropLast else l)

/-- `clean_string` from src/nord.rs (lines 159-161): remove the fixed
carriage-return/dash noise pattern, then every newline. -/
def clean_string (input : Str) : Str :=
  replaceAll ("\n".data) [] (replaceAll ("\r-\r  \r\r-\r  \r".data) [] input)

/-- `extract_string` from src/nord.rs (lines 130-138): find the first line
containing `arg` (empty string when none does), delete every occurrence of
`arg` from it, and clean the result. -/
def extract_string (source arg : Str) : Str :=
  clean_string (replaceAll arg []
    (((lines source).find? (fun it => containsSub it arg)).getD []))

/-- `parse_output` from src/nord.rs (lines 140-149), on the captured
stdout text: if the text contains the banner token "NordVPN", split on "."
and take element 1 (an out-of-bounds index aborts, modelled as `none`);
otherwise return the text unchanged. -/
def parse_output (result : Str) : Option Str :=
  if containsSub result ("NordVPN".data) then (splitOn (".".data) result)[1]?
  else some result

/-- `Transfer` from src/nord.rs. -/
structure Transfer where
  down : Str
  up : Str
deriving DecidableEq

/-- `Status` from src/nord.rs. -/
structure Status where
  status : Str
  ip : Str
  country : Str
  city : Str
  transfer : Transfer
  uptime : Str
deriving DecidableEq

/-- `extract_transfer` from src/nord.rs (lines 123-128). -/
def extract_transfer (result : Str) : Transfer :=
  { up := extract_string result (" sent".data),
    down := extract_string result (" received".data) }

/-- The `Status` record built by `get_status` (src/nord.rs lines 109-120)
from the already-parsed command output. -/
def mk_status (result : Str) : Status :=
  { status := extract_string result ("Status: ".data),
    ip := extract_string result ("IP: ".data),
    country := extract_string result ("Country: ".data),
    city := extract_string result ("City: ".data),
    transfer := extract_transfer
      (replaceAll (", ".data) ("\n".data) (extract_string result ("Transfer: ".data))),
    uptime := replaceAll (" seconds".data) []
      (replaceAll (" minutes ".data) (":".data)
        (replaceAll (" hours ".data) (":".data)
          (extract_string result ("Uptime: ".data)))) }

/-- `get_status` from src/nord.rs (lines 103-121), as a function of the
stdout text of the `nordvpn status` subprocess.  `none` marks the abort
inside `parse_output`. -/
def get_status (stdout : Str) : Option Status :=
  (parse_output stdout).map mk_status

/-- `City` from src/nord.rs. -/
structure City where
  name : Str
deriving DecidableEq

/-- `Country` from src/nord.rs. -/
structure Country where
  name : Str
  cities : List City
deriving DecidableEq

/-- `Pane` from src/app.rs. -/
inductive Pane where
  | Country
  | City
deriving DecidableEq

/-- `Pane::first` from src/app.rs (lines 15-17). -/
def Pane.first : Pane := Pane.Country

/-- `Pane::next` from src/app.rs (lines 19-25). -/
def Pane.next : Pane → Pane
  | .Country => .City
  | .City => .Country

/-- `Pane::prev` from src/app.rs (lines 27-33): the same toggle as `next`
(there are only two panes). -/
def Pane.prev : Pane → Pane
  | .Country => .City
  | .City => .Country

/-- `StatefulList` from src/app.rs.  `ratatui`'s `ListState` is modelled
by the component the application reads and writes: the optional selected
index (the scroll offset is pure widget-render state). -/
structure StatefulList (α : Type) where
  selected : Option Nat
  items : List α
deriving DecidableEq

variable {α : Type}

/-- `StatefulList::with_items` from src/app.rs (lines 453-458):
default state, so no selection. -/
def StatefulList.with_items (items : List α) : StatefulList α :=
  { selected := none, items := items }

/-- `StatefulList::next` from src/app.rs (lines 460-474). -/
def StatefulList.next (l : StatefulList α) : StatefulList α :=
  if l.items.length > 0 then
    { l with
      selected := some (match l.selected with
        | some i => if i ≥ l.items.length - 1 then 0 else i + 1
        | none => 0) }
  else l

/-- `StatefulList::previous` from src/app.rs (lines 476-490). -/
def StatefulList.previous (l : StatefulList α) : StatefulList α :=
  if l.items.length > 0 then
    { l with
      selected := some (match l.selected with
        | some i => if i = 0 then l.items.length - 1 else i - 1
        | none => 0) }
  else l

/-- `StatefulList::first` from src/app.rs (lines 492-494). -/
def StatefulList.first (l : StatefulList α) : StatefulList α :=
  { l with selected := some 0 }

/-- `StatefulList::last` from src/app.rs (lines 496-498).  (`len() - 1` is
natural-number subtraction; every caller in the claims below uses it on a
non-empty list, where it agrees with the Rust `usize` arithmetic.) -/
def StatefulList.last (l : StatefulList α) : StatefulList α :=
  { l with selected := some (l.items.length - 1) }

/-- `App` from src/app.rs (lines 41-48).  The `ui` field (per-frame layout
rectangles) is pure rendering data and is not part of the state machine
modelled here. -/
structure App where
  status : Status
  pane : Pane
  countries : StatefulList Country
  cities : StatefulList City
  help : Bool
deriving DecidableEq

/-- `App::new` from src/app.rs (lines 51-60), from the initial `Nord`
data (its status and country list). -/
def App.new (nordStatus : Status) (nordCountries : List Country) : App :=
  { status := nordStatus,
    pane := Pane.first,
    countries := StatefulList.with_items nordCountries,
    cities := StatefulList.with_items [],
    help := false }

/-- `App::reload_cities` from src/app.rs (lines 132-140): index the
country list at the selected index (0 when none), `expect` the lookup
(`none` marks the abort), and replace the city list wholesale. -/
def App.reload_cities (a : App) : Option App :=
  (a.countries.items[a.countries.selected.getD 0]?).map
    (fun country => { a with cities := StatefulList.with_items country.cities })

/-- `App::connect_selected` from src/app.rs (lines 142-169), reduced to
the name handed to `nordvpn c`: index the active pane's list at the
selected index (0 when none); the `expect` of a failed lookup is `none`. -/
def App.connect_selected (a : App) : Option Str :=
  match a.pane with
  | .Country => (a.countries.items[a.countries.selected.getD 0]?).map (fun c => c.name)
  | .City => (a.cities.items[a.cities.selected.getD 0]?).map (fun c => c.name)

/-- The two foreground colors chosen by `render_status`
(src/app.rs lines 326-330). -/
inductive Color where
  | Green
  | Red
deriving DecidableEq

/-- The status-label foreground computed by `render_status`
(src/app.rs lines 326-330): green exactly when the status string equals
"Connected". -/
def status_fg (st : Status) : Color :=
  if st.status = ("Connected".data) then Color.Green else Color.Red

/-- The key codes handled by `App::run` (src/app.rs lines 72-118). -/
inductive KeyCode where
  | char (c : Char)
  | Down
  | Up
  | Left
  | Right
  | Tab
  | Enter
  | Esc
deriving DecidableEq

/-- The external `nordvpn` subprocess commands a key press can issue. -/
inductive ExtCmd where
  | connect (name : Str)
  | disconnect
deriving DecidableEq

/-- Outcome of the first `match key.code` block in `App::run`
(src/app.rs lines 72-88): exit the loop, abort (a failed `expect`), or
continue with the updated state and the issued external commands. -/
inductive MainOut where
  | quit
  | fatal
  | ok (a : App) (cmds : List ExtCmd)

/-- Outcome of one full key press in `App::run`: exit, or continue. -/
inductive StepOut where
  | quit
  | st (a : App) (cmds : List ExtCmd)
deriving DecidableEq

/-- The first `match key.code` block of `App::run` (src/app.rs lines
72-88).  `fetched` is the status text the external collaborator would
return for the `reload_status` calls; `rand` is the index drawn by
`connect_random` (src/app.rs lines 171-175), modelled as an argument. -/
def App.key_main (a : App) (k : KeyCode) (fetched : Status) (rand : Nat) : MainOut :=
  match k with
  | .char 'q' | .Esc =>
    if a.help then .ok { a with help := !a.help } [] else .quit
  | .char 'l' | .Right | .Tab => .ok { a with pane := a.pane.next } []
  | .char 'h' | .Left => .ok { a with pane := a.pane.prev } []
  | .char 'r' => .ok { a with status := fetched } []
  | .char 'R' =>
    match a.countries.items[rand]? with
    | some c => .ok { a with status := fetched } [ExtCmd.connect c.name]
    | none => .fatal
  | .char 'c' | .Enter =>
    match a.connect_selected with
    | some n => .ok { a with status := fetched } [ExtCmd.connect n]
    | none => .fatal
  | .char 'd' => .ok { a with status := fetched } [ExtCmd.disconnect]
  | .char '?' => .ok { a with help := !a.help } []
  | _ => .ok a []

/-- The second, pane-conditional `match` of `App::run` (src/app.rs lines
90-118).  `none` marks the abort inside `reload_cities`. -/
def App.key_pane (a : App) (k : KeyCode) : Option App :=
  match a.pane with
  | .Country =>
    match k with
    | .char 'j' | .Down => App.reload_cities { a with countries := a.countries.next }
    | .char 'k' | .Up => App.reload_cities { a with countries := a.countries.previous }
    | .char 'g' => App.reload_cities { a with countries := a.countries.first }
    | .char 'G' => some { a with countries := a.countries.last }
    | _ => some a
  | .City =>
    match k with
    | .char 'j' | .Down => some { a with cities := a.cities.next }
    | .char 'k' | .Up => some { a with cities := a.cities.previous }
    | .char 'g' => some { a with countries := a.countries.first }
    | .char 'G' => some { a with countries := a.countries.last }
    | _ => some a

/-- One key press in `App::run` (src/app.rs lines 69-119): the first
`match` (which can exit the loop or abort), then — when the loop
continues — the pane-conditional `match` on the already-updated state. -/
def App.step (a : App) (k : KeyCode) (fetched : Status) (rand : Nat) : Option StepOut :=
  match a.key_main k fetched rand with
  | .fatal => none
  | .quit => some StepOut.quit
  | .ok a1 cmds => (a1.key_pane k).map (fun a2 => StepOut.st a2 cmds)

/-- Spec reading for the preamble strip: the content strictly after the
first "." separator, `none` when no "." occurs. -/
def dropThroughDot : Str → Option Str
  | [] => none
  | c :: t => if c = '.' then some t else dropThroughDot t

/-- Spec reading: the content up to (excluding) the first "." separator,
the whole string when no "." occurs. -/
def takeUntilDot : Str → Str
  | [] => []
  | c :: t => if c = '.' then [] else c :: takeUntilDot t

/-! ### Helper lemmas -/

theorem StatefulList.next_items (l : StatefulList α) : l.next.items = l.items := by
  unfold StatefulList.next
  split <;> rfl

theorem StatefulList.previous_items (l : StatefulList α) : l.previous.items = l.items := by
  unfold StatefulList.previous
  split <;> rfl

theorem StatefulList.first_items (l : StatefulList α) : l.first.items = l.items := rfl

theorem StatefulList.next_selected_valid (l : StatefulList α) (hne : l.items ≠ [])
    (hsel : ∀ i, l.selected = some i → i < l.items.length) :
    ∀ i, l.next.selected = some i → i < l.next.items.length := by
  have h0 : 0 < l.items.length := List.length_pos.mpr hne
  intro i hi
  rw [StatefulList.next_items]
  unfold StatefulList.next at hi
  rw [if_pos h0] at hi
  cases hs : l.selected with
  | none => rw [hs] at hi; simp at hi; omega
  | some j =>
    have hj := hsel j hs
    rw [hs] at hi
    simp at hi
    split at hi <;> omega

theorem StatefulList.previous_selected_valid (l : StatefulList α) (hne : l.items ≠ [])
    (hsel : ∀ i, l.selected = some i → i < l.items.length) :
    ∀ i, l.previous.selected = some i → i < l.previous.items.length := by
  have h0 : 0 < l.items.length := List.length_pos.mpr hne
  intro i hi
  rw [StatefulList.previous_items]
  unfold StatefulList.previous at hi
  rw [if_pos h0] at hi
  cases hs : l.selected with
  | none => rw [hs] at hi; simp at hi; omega
  | some j =>
    have hj := hsel j hs
    rw [hs] at hi
    simp at hi
    split at hi <;> omega

theorem StatefulList.first_selected_valid (l : StatefulList α) (hne : l.items ≠ []) :
    ∀ i, l.first.selected = some i → i < l.first.items.length := by
  intro i hi
  have h0 : 0 < l.items.length := List.length_pos.mpr hne
  simp [StatefulList.first] at hi
  rw [StatefulList.first_items]
  omega

/-- After `k + 1` calls of `next` from the no-selection state over a
non-empty item list, index `k` is selected (for `k < length`). -/
theorem StatefulList.next_iterate (items : List α) (hne : items ≠ []) :
    ∀ k, k < items.length →
      StatefulList.next^[k + 1] (StatefulList.with_items items)
        = { selected := some k, items := items } := by
  have h0 : 0 < items.length := List.length_pos.mpr hne
  intro k
  induction k with
  | zero =>
    intro _
    simp [StatefulList.with_items, StatefulList.next, h0]
  | succ n ih =>
    intro hk
    rw [Function.iterate_succ_apply', ih (Nat.lt_of_succ_lt hk)]
    have hlt : ¬ n ≥ items.length - 1 := by omega
    simp [StatefulList.next, h0, hlt]

/-- `App::reload_cities` on a non-empty country list with an in-range
(or absent) selection: succeeds, looks up the country at the selection
index (0 by default), and replaces the city list wholesale with an
unselected cursor. -/
theorem App.reload_cities_spec (a : App) (hne : a.countries.items ≠ [])
    (hsel : ∀ i, a.countries.selected = some i → i < a.countries.items.length) :
    ∃ c, a.countries.items[a.countries.selected.getD 0]? = some c ∧
      a.reload_cities
        = some { a with cities := { selected := none, items := c.cities } } := by
  have hidx : a.countries.selected.getD 0 < a.countries.items.length := by
    cases hs : a.countries.selected with
    | none => simpa using List.length_pos.mpr hne
    | some i => simpa using hsel i hs
  refine ⟨a.countries.items[a.countries.selected.getD 0],
    List.getElem?_eq_getElem hidx, ?_⟩
  simp [App.reload_cities, List.getElem?_eq_getElem hidx, StatefulList.with_items]

/-! ### Sample data for the witnesses -/

/-- Sample city list (concrete witness data). -/
def sampleCities : List City := [⟨"Lisbon".data⟩, ⟨"Porto".data⟩]

/-- Sample countries (concrete witness data). -/
def sampleCountry1 : Country := ⟨"Portugal".data, sampleCities⟩

/-- Second sample country (concrete witness data). -/
def sampleCountry2 : Country := ⟨"Spain".data, [⟨"Madrid".data⟩]⟩

/-- Sample status snapshot (concrete witness data). -/
def sampleStatus : Status :=
  ⟨"Connected".data, "1.2.3.4".data, "Portugal".data, "Lisbon".data,
    ⟨"1.2 GiB".data, "500 MiB".data⟩, "1:30:5".data⟩

/-- Sample application state: Country pane focused, two countries, no
selection, empty city list (concrete witness data). -/
def sampleApp : App :=
  { status := sampleStatus,
    pane := Pane.Country,
    countries := { selected := none, items := [sampleCountry1, sampleCountry2] },
    cities := { selected := none, items := [] },
    help := false }

/-! ### Claims -/

/-- C3: `next()` on a selectable list is a no-op when the list is empty;
otherwise it selects 0 from no selection and `(i + 1) mod length` from a
selected (in-range) index `i`; consequently, over a non-empty list of
length `n`, the `(k+1)`-th call starting from no selection has visited up
to index `k` (for every `k < n`), and the `(n+1)`-th call wraps back
to index 0. -/
theorem c3_next_wraps {α : Type} (l : StatefulList α) :
    (l.items = [] → l.next = l) ∧
    (l.items ≠ [] →
      (l.selected = none → l.next.selected = some 0) ∧
      (∀ i, l.selected = some i → i < l.items.length →
        l.next.selected = some ((i + 1) % l.items.length)) ∧
      (∀ k, k < l.items.length →
        (StatefulList.next^[k + 1] (StatefulList.with_items l.items)).selected
          = some k) ∧
      (StatefulList.next^[l.items.length + 1]
        (StatefulList.with_items l.items)).selected = some 0) := by
  constructor
  · intro he
    simp [StatefulList.next, he]
  · intro hne
    have h0 : 0 < l.items.length := List.length_pos.mpr hne
    refine ⟨?_, ?_, ?_, ?_⟩
    · intro hs
      simp [StatefulList.next, h0, hs]
    · intro i hs hlt
      simp only [StatefulList.next, if_pos h0, hs]
      by_cases hge : i ≥ l.items.length - 1
      · have h1 : i + 1 = l.items.length := by omega
        simp [hge, h1]
      · have h1 : (i + 1) % l.items.length = i + 1 :=
          Nat.mod_eq_of_lt (by omega)
        simp [hge, h1]
    · intro k hk
      rw [StatefulList.next_iterate l.items hne k hk]
    · have hit := StatefulList.next_iterate l.items hne (l.items.length - 1) (by omega)
      rw [Nat.sub_add_cancel h0] at hit
      rw [Function.iterate_succ_apply', hit]
      simp [StatefulList.next, h0]

/-- C3 witness: on a concrete two-element list, two `next()` calls from no
selection reach index 1, and the third call wraps to index 0. -/
theorem c3_next_wraps_witness :
    (StatefulList.next^[2] (StatefulList.with_items sampleCities)).selected = some 1
    ∧ (StatefulList.next^[3] (StatefulList.with_items sampleCities)).selected
        = some 0 := by
  constructor
  · exact ((c3_next_wraps
      ({ selected := none, items := sampleCities } : StatefulList City)).2
        (by decide)).2.2.1 1 (by decide)
  · exact ((c3_next_wraps
      ({ selected := none, items := sampleCities } : StatefulList City)).2
        (by decide)).2.2.2

/-- C4: `previous()` is a no-op on an empty list; otherwise it selects 0
from no selection, wraps from index 0 to `length - 1`, and steps from
index `i + 1` down to `i`. -/
theorem c4_previous_wraps {α : Type} (l : StatefulList α) :
    (l.items = [] → l.previous = l) ∧
    (l.items ≠ [] →
      (l.selected = none → l.previous.selected = some 0) ∧
      (l.selected = some 0 → l.previous.selected = some (l.items.length - 1)) ∧
      (∀ i, l.selected = some (i + 1) → l.previous.selected = some i)) := by
  constructor
  · intro he
    simp [StatefulList.previous, he]
  · intro hne
    have h0 : 0 < l.items.length := List.length_pos.mpr hne
    refine ⟨?_, ?_, ?_⟩
    · intro hs
      simp [StatefulList.previous, h0, hs]
    · intro hs
      simp [StatefulList.previous, h0, hs]
    · intro i hs
      simp [StatefulList.previous, h0, hs]

/-- C4 witness: on a concrete two-element list, `previous()` from index 0
wraps to index 1 (= length - 1), and from no selection selects 0. -/
theorem c4_previous_wraps_witness :
    (StatefulList.previous
      ({ selected := some 0, items := sampleCities } : StatefulList City)).selected
        = some 1
    ∧ (StatefulList.previous
        ({ selected := none, items := sampleCities } : StatefulList City)).selected
          = some 0 := by
  constructor
  · exact ((c4_previous_wraps _).2 (by decide)).2.1 rfl
  · exact ((c4_previous_wraps _).2 (by decide)).1 rfl

/-- C7: the status label's foreground is the connected color (green)
exactly when the status string equals "Connected" (no normalization);
every other status string gets the disconnected color (red). -/
theorem c7_status_color (st : Status) :
    (status_fg st = Color.Green ↔ st.status = ("Connected".data)) ∧
    (st.status ≠ ("Connected".data) → status_fg st = Color.Red) := by
  constructor
  · unfold status_fg
    split <;> simp_all
  · intro h
    simp [status_fg, h]

/-- C7 witness: the lowercase string "connected" is rendered with the
disconnected color — the comparison is exact, not case-insensitive. -/
theorem c7_status_color_witness :
    status_fg ⟨"connected".data, [], [], [], ⟨[], []⟩, []⟩ = Color.Red :=
  (c7_status_color _).2 (by decide)

/-- C5: with a non-empty country list (and an in-range selection, the
model invariant), `reload_cities` looks up the country at the current
selection index (0 when none is selected), replaces the city list
wholesale with that country's cities, resets the city cursor to
unselected, and changes nothing else. -/
theorem c5_reload_cities (a : App) (hne : a.countries.items ≠ [])
    (hsel : ∀ i, a.countries.selected = some i → i < a.countries.items.length) :
    ∃ a' c, a.countries.items[a.countries.selected.getD 0]? = some c ∧
      a.reload_cities = some a' ∧
      a'.cities.items = c.cities ∧
      a'.cities.selected = none ∧
      a'.countries = a.countries ∧
      a'.pane = a.pane ∧ a'.status = a.status ∧ a'.help = a.help := by
  obtain ⟨c, hget, hrel⟩ := App.reload_cities_spec a hne hsel
  exact ⟨_, c, hget, hrel, rfl, rfl, rfl, rfl, rfl, rfl⟩

/-- C5 witness: on the concrete sample state (two countries, none
selected) the city list becomes the first country's cities, unselected. -/
theorem c5_reload_cities_witness :
    ∃ a' c, sampleApp.countries.items[sampleApp.countries.selected.getD 0]? = some c ∧
      sampleApp.reload_cities = some a' ∧
      a'.cities.items = c.cities ∧
      a'.cities.selected = none ∧
      a'.countries = sampleApp.countries ∧
      a'.pane = sampleApp.pane ∧ a'.status = sampleApp.status ∧
      a'.help = sampleApp.help :=
  c5_reload_cities sampleApp (by decide) (fun i h => nomatch h)

/-- The conclusion shared by the cities-recomputing keys of C6: the step
succeeds with no external command, the country list becomes `l'`, and the
city list is replaced by the cities of the country at the new selection
index, cursor unselected. -/
def recomputesCities (a : App) (k : KeyCode) (f : Status) (r : Nat)
    (l' : StatefulList Country) : Prop :=
  ∃ a' c, a.step k f r = some (StepOut.st a' []) ∧
    a'.countries = l' ∧
    l'.items[l'.selected.getD 0]? = some c ∧
    a'.cities.items = c.cities ∧
    a'.cities.selected = none

/-- C6: in the Country pane over a non-empty country list, `G` selects
the last country index and leaves the city list (items and cursor)
untouched, while `j`/`Down`, `k`/`Up` and `g` move the country selection
(`next`, `previous`, `first` respectively) and then recompute the city
list from the newly selected country. -/
theorem c6_country_pane_keys (a : App) (f : Status) (r : Nat)
    (hp : a.pane = Pane.Country) (hne : a.countries.items ≠ [])
    (hsel : ∀ i, a.countries.selected = some i → i < a.countries.items.length) :
    (∃ a', a.step (KeyCode.char 'G') f r = some (StepOut.st a' []) ∧
      a'.countries.selected = some (a.countries.items.length - 1) ∧
      a'.countries.items = a.countries.items ∧
      a'.cities = a.cities) ∧
    recomputesCities a (KeyCode.char 'j') f r a.countries.next ∧
    recomputesCities a KeyCode.Down f r a.countries.next ∧
    recomputesCities a (KeyCode.char 'k') f r a.countries.previous ∧
    recomputesCities a KeyCode.Up f r a.countries.previous ∧
    recomputesCities a (KeyCode.char 'g') f r a.countries.first := by
  obtain ⟨st, pn, cs, ci, hl⟩ := a
  simp only at hp hne hsel
  subst hp
  have hnextS := StatefulList.next_selected_valid cs hne hsel
  have hprevS := StatefulList.previous_selected_valid cs hne hsel
  have hfirstS := StatefulList.first_selected_valid cs hne
  have hnextI : cs.next.items = cs.items := StatefulList.next_items cs
  have hprevI : cs.previous.items = cs.items := StatefulList.previous_items cs
  have hfirstI : cs.first.items = cs.items := StatefulList.first_items cs
  refine ⟨⟨App.mk st Pane.Country cs.last ci hl, rfl, rfl, rfl, rfl⟩,
    ?_, ?_, ?_, ?_, ?_⟩
  · obtain ⟨c, hget, hrel⟩ := App.reload_cities_spec
      ⟨st, Pane.Country, cs.next, ci, hl⟩ (by simpa [hnextI] using hne) hnextS
    refine ⟨App.mk st Pane.Country cs.next ⟨none, c.cities⟩ hl, c, ?_, rfl, hget,
      rfl, rfl⟩
    show (App.reload_cities ⟨st, Pane.Country, cs.next, ci, hl⟩).map _ = _
    rw [hrel]
    rfl
  · obtain ⟨c, hget, hrel⟩ := App.reload_cities_spec
      ⟨st, Pane.Country, cs.next, ci, hl⟩ (by simpa [hnextI] using hne) hnextS
    refine ⟨App.mk st Pane.Country cs.next ⟨none, c.cities⟩ hl, c, ?_, rfl, hget,
      rfl, rfl⟩
    show (App.reload_cities ⟨st, Pane.Country, cs.next, ci, hl⟩).map _ = _
    rw [hrel]
    rfl
  · obtain ⟨c, hget, hrel⟩ := App.reload_cities_spec
      ⟨st, Pane.Country, cs.previous, ci, hl⟩ (by simpa [hprevI] using hne) hprevS
    refine ⟨App.mk st Pane.Country cs.previous ⟨none, c.cities⟩ hl, c, ?_, rfl, hget,
      rfl, rfl⟩
    show (App.reload_cities ⟨st, Pane.Country, cs.previous, ci, hl⟩).map _ = _
    rw [hrel]
    rfl
  · obtain ⟨c, hget, hrel⟩ := App.reload_cities_spec
      ⟨st, Pane.Country, cs.previous, ci, hl⟩ (by simpa [hprevI] using hne) hprevS
    refine ⟨App.mk st Pane.Country cs.previous ⟨none, c.cities⟩ hl, c, ?_, rfl, hget,
      rfl, rfl⟩
    show (App.reload_cities ⟨st, Pane.Country, cs.previous, ci, hl⟩).map _ = _
    rw [hrel]
    rfl
  · obtain ⟨c, hget, hrel⟩ := App.reload_cities_spec
      ⟨st, Pane.Country, cs.first, ci, hl⟩ (by simpa [hfirstI] using hne) hfirstS
    refine ⟨App.mk st Pane.Country cs.first ⟨none, c.cities⟩ hl, c, ?_, rfl, hget,
      rfl, rfl⟩
    show (App.reload_cities ⟨st, Pane.Country, cs.first, ci, hl⟩).map _ = _
    rw [hrel]
    rfl

/-- C6 witness: the concrete sample state, `G` versus the five
recomputing keys. -/
theorem c6_country_pane_keys_witness :
    (∃ a', sampleApp.step (KeyCode.char 'G') sampleStatus 0
        = some (StepOut.st a' []) ∧
      a'.countries.selected = some (sampleApp.countries.items.length - 1) ∧
      a'.countries.items = sampleApp.countries.items ∧
      a'.cities = sampleApp.cities) ∧
    recomputesCities sampleApp (KeyCode.char 'j') sampleStatus 0
      sampleApp.countries.next ∧
    recomputesCities sampleApp KeyCode.Down sampleStatus 0
      sampleApp.countries.next ∧
    recomputesCities sampleApp (KeyCode.char 'k') sampleStatus 0
      sampleApp.countries.previous ∧
    recomputesCities sampleApp KeyCode.Up sampleStatus 0
      sampleApp.countries.previous ∧
    recomputesCities sampleApp (KeyCode.char 'g') sampleStatus 0
      sampleApp.countries.first :=
  c6_country_pane_keys sampleApp sampleStatus 0 rfl (by decide)
    (fun i h => nomatch h)

/-- C9: from any initial application state (city list empty, Country pane
focused), pressing Tab moves focus to the City pane, and then pressing
Enter (or `c`) makes `connect_selected` abort on the failed index-0
lookup in the empty city list — the step is a crash, not a no-op. -/
theorem c9_tab_enter_aborts (s : Status) (cs : List Country)
    (f f2 : Status) (r r2 : Nat) :
    ∃ a', (App.new s cs).step KeyCode.Tab f r = some (StepOut.st a' []) ∧
      a'.pane = Pane.City ∧
      a'.cities.items = [] ∧
      a'.connect_selected = none ∧
      a'.step KeyCode.Enter f2 r2 = none :=
  ⟨{ App.new s cs with pane := Pane.City }, rfl, rfl, rfl, rfl, rfl⟩

/-- C10: pressing `c` or Enter with the active pane's list non-empty but
unselected issues a connect request for the item at index 0 (the first
item), refreshing the status — not a no-op. -/
theorem c10_connect_defaults_first (a : App) (f : Status) (r : Nat) (k : KeyCode)
    (hk : k = KeyCode.char 'c' ∨ k = KeyCode.Enter) :
    (a.pane = Pane.Country → a.countries.selected = none →
      ∀ c rest, a.countries.items = c :: rest →
        a.step k f r
          = some (StepOut.st { a with status := f } [ExtCmd.connect c.name])) ∧
    (a.pane = Pane.City → a.cities.selected = none →
      ∀ c rest, a.cities.items = c :: rest →
        a.step k f r
          = some (StepOut.st { a with status := f } [ExtCmd.connect c.name])) := by
  obtain ⟨st, pn, cs, ci, hl⟩ := a
  constructor
  · intro hp hs c rest hitems
    simp only at hp hs hitems
    subst hp
    rcases hk with rfl | rfl <;>
      simp [App.step, App.key_main, App.key_pane, App.connect_selected, hs, hitems]
  · intro hp hs c rest hitems
    simp only at hp hs hitems
    subst hp
    rcases hk with rfl | rfl <;>
      simp [App.step, App.key_main, App.key_pane, App.connect_selected, hs, hitems]

/-- C10 witness: on the concrete sample state (Country pane, nothing
selected), `c` connects to the first country. -/
theorem c10_connect_defaults_first_witness :
    sampleApp.step (KeyCode.char 'c') sampleStatus 0
      = some (StepOut.st { sampleApp with status := sampleStatus }
          [ExtCmd.connect sampleCountry1.name]) :=
  (c10_connect_defaults_first sampleApp sampleStatus 0 (KeyCode.char 'c')
    (Or.inl rfl)).1 rfl rfl sampleCountry1 [sampleCountry2] rfl

/-- C8: the uptime field of a parsed snapshot is the extracted
"Uptime: " line value with every " hours " and " minutes " replaced by
":" and " seconds" removed; "2 hours 5 minutes 10 seconds" becomes
"2:5:10", a minutes/seconds-only value is transformed the same way, and a
missing "Uptime: " line yields the empty string, not a failure. -/
theorem c8_uptime_transform :
    (∀ result : Str,
      (mk_status result).uptime
        = replaceAll (" seconds".data) []
            (replaceAll (" minutes ".data) (":".data)
              (replaceAll (" hours ".data) (":".data)
                (extract_string result ("Uptime: ".data))))) ∧
    (get_status ("Status: Connected\nUptime: 2 hours 5 minutes 10 seconds".data)).map
        Status.uptime = some ("2:5:10".data) ∧
    (get_status ("Uptime: 30 minutes 5 seconds".data)).map Status.uptime
      = some ("30:5".data) ∧
    (get_status ("Status: Connected\nIP: 1.2.3.4".data)).map Status.uptime
      = some [] :=
  ⟨fun _ => rfl, by decide, by decide, by decide⟩

/-- When no line of the source contains the label, `extract_string`
returns the empty string. -/
theorem extract_string_of_no_line (source arg : Str)
    (h : (lines source).find? (fun it => containsSub it arg) = none) :
    extract_string source arg = [] := by
  unfold extract_string
  rw [h]
  rfl

/-- C1 counterexample: the text "NordVPN" — banner token present, no "."
separator — makes status parsing abort (the out-of-range index in
`parse_output`), so parsing does not tolerate every malformed text. -/
theorem c1_counterexample : get_status ("NordVPN".data) = none := by decide

/-- C1 (amended): for status texts in which presence of the banner token
implies at least two "."-separated segments, parsing never aborts, and
any field whose label line is absent from the parsed text is the empty
string. -/
theorem c1_missing_labels_empty (s : Str)
    (h : containsSub s ("NordVPN".data) = true → 2 ≤ (splitOn (".".data) s).length) :
    ∃ st, get_status s = some st ∧
      ∀ r, parse_output s = some r →
        st = mk_status r ∧
        ((lines r).find? (fun it => containsSub it ("Status: ".data)) = none →
          st.status = []) ∧
        ((lines r).find? (fun it => containsSub it ("IP: ".data)) = none →
          st.ip = []) ∧
        ((lines r).find? (fun it => containsSub it ("Country: ".data)) = none →
          st.country = []) ∧
        ((lines r).find? (fun it => containsSub it ("City: ".data)) = none →
          st.city = []) ∧
        ((lines r).find? (fun it => containsSub it ("Uptime: ".data)) = none →
          st.uptime = []) ∧
        ((lines r).find? (fun it => containsSub it ("Transfer: ".data)) = none →
          st.transfer.down = [] ∧ st.transfer.up = []) := by
  have hp : ∃ r, parse_output s = some r := by
    unfold parse_output
    by_cases hc : containsSub s ("NordVPN".data) = true
    · rw [if_pos hc]
      cases hg : (splitOn (".".data) s)[1]? with
      | none =>
        have h1 := List.getElem?_eq_none_iff.mp hg
        have h2 := h hc
        omega
      | some r => exact ⟨r, rfl⟩
    · rw [if_neg hc]
      exact ⟨s, rfl⟩
  obtain ⟨r, hr⟩ := hp
  refine ⟨mk_status r, by simp [get_status, hr], ?_⟩
  intro r2 hr2
  rw [hr] at hr2
  obtain rfl : r = r2 := by injection hr2
  refine ⟨rfl, ?_, ?_, ?_, ?_, ?_, ?_⟩
  · intro hf
    simp only [mk_status]
    exact extract_string_of_no_line _ _ hf
  · intro hf
    simp only [mk_status]
    exact extract_string_of_no_line _ _ hf
  · intro hf
    simp only [mk_status]
    exact extract_string_of_no_line _ _ hf
  · intro hf
    simp only [mk_status]
    exact extract_string_of_no_line _ _ hf
  · intro hf
    have h1 := extract_string_of_no_line r ("Uptime: ".data) hf
    simp only [mk_status, h1]
    decide
  · intro hf
    have h1 := extract_string_of_no_line r ("Transfer: ".data) hf
    constructor
    · simp only [mk_status, extract_transfer, h1]
      decide
    · simp only [mk_status, extract_transfer, h1]
      decide

/-- C1 witness: a banner-prefixed text with a "." separator parses
without aborting, and its label-free fields are all empty. -/
theorem c1_missing_labels_empty_witness :
    ∃ st, get_status ("NordVPN.\nStatus: Connected".data) = some st ∧
      ∀ r, parse_output ("NordVPN.\nStatus: Connected".data) = some r →
        st = mk_status r ∧
        ((lines r).find? (fun it => containsSub it ("Status: ".data)) = none →
          st.status = []) ∧
        ((lines r).find? (fun it => containsSub it ("IP: ".data)) = none →
          st.ip = []) ∧
        ((lines r).find? (fun it => containsSub it ("Country: ".data)) = none →
          st.country = []) ∧
        ((lines r).find? (fun it => containsSub it ("City: ".data)) = none →
          st.city = []) ∧
        ((lines r).find? (fun it => containsSub it ("Uptime: ".data)) = none →
          st.uptime = []) ∧
        ((lines r).find? (fun it => containsSub it ("Transfer: ".data)) = none →
          st.transfer.down = [] ∧ st.transfer.up = []) :=
  c1_missing_labels_empty _ (by decide)

/-- The head of `splitOnF` on "." is the text up to the first dot. -/
theorem splitOnF_dot_head (f : Nat) :
    ∀ s : Str, s.length ≤ f →
      ∃ t, splitOnF (".".data) f s = takeUntilDot s :: t := by
  induction f with
  | zero =>
    intro s hs
    obtain rfl : s = [] := List.eq_nil_of_length_eq_zero (Nat.le_zero.mp hs)
    exact ⟨[], rfl⟩
  | succ n ih =>
    intro s hs
    cases s with
    | nil => exact ⟨[], rfl⟩
    | cons c t =>
      by_cases hc : c = '.'
      · subst hc
        refine ⟨splitOnF (".".data) n t, ?_⟩
        have hcond : (".".data ≠ [] ∧ (".".data).isPrefixOf ('.' :: t) = true) :=
          ⟨by decide, by simp [List.isPrefixOf]⟩
        simp only [splitOnF]
        rw [if_pos hcond]
        simp [takeUntilDot]
      · obtain ⟨tt, htt⟩ := ih t
          (by simp only [List.length_cons] at hs; omega)
        refine ⟨tt, ?_⟩
        have hcond : ¬ (".".data ≠ [] ∧ (".".data).isPrefixOf (c :: t) = true) := by
          intro hh
          apply hc
          have h2 := hh.2
          simp [List.isPrefixOf] at h2
          exact h2.symm
        simp only [splitOnF]
        rw [if_neg hcond, htt]
        simp [takeUntilDot, hc]

/-- Element 1 of the "."-split is the text strictly between the first "."
and the next "." (or the end), absent when no "." occurs. -/
theorem splitOnF_dot_get1 (f : Nat) :
    ∀ s : Str, s.length ≤ f →
      (splitOnF (".".data) f s)[1]? = (dropThroughDot s).map takeUntilDot := by
  induction f with
  | zero =>
    intro s hs
    obtain rfl : s = [] := List.eq_nil_of_length_eq_zero (Nat.le_zero.mp hs)
    rfl
  | succ n ih =>
    intro s hs
    cases s with
    | nil => rfl
    | cons c t =>
      have ht : t.length ≤ n := by simp only [List.length_cons] at hs; omega
      by_cases hc : c = '.'
      · subst hc
        have hcond : (".".data ≠ [] ∧ (".".data).isPrefixOf ('.' :: t) = true) :=
          ⟨by decide, by simp [List.isPrefixOf]⟩
        simp only [splitOnF]
        rw [if_pos hcond]
        obtain ⟨tt, htt⟩ := splitOnF_dot_head n t ht
        simp [dropThroughDot, htt]
      · have hcond : ¬ (".".data ≠ [] ∧ (".".data).isPrefixOf (c :: t) = true) := by
          intro hh
          apply hc
          have h2 := hh.2
          simp [List.isPrefixOf] at h2
          exact h2.symm
        simp only [splitOnF]
        rw [if_neg hcond]
        obtain ⟨tt, htt⟩ := splitOnF_dot_head n t ht
        rw [htt]
        have hrec := ih t ht
        rw [htt] at hrec
        simpa [dropThroughDot, hc] using hrec

/-- C2 counterexample: on "NordVPN.a.b" the entire content after the
first "." is "a.b", but the preamble strip returns only "a" (the segment
before the next "."). -/
theorem c2_counterexample :
    dropThroughDot ("NordVPN.a.b".data) = some ("a.b".data) ∧
    parse_output ("NordVPN.a.b".data) = some ("a".data) ∧
    parse_output ("NordVPN.a.b".data) ≠ some ("a.b".data) :=
  ⟨by decide, by decide, by decide⟩

/-- C2 (amended): with the banner token present, the preamble strip
returns the content after the first "." separator and before the next
"." (or the end of the text), aborting when no "." occurs; without the
banner token the text is returned unchanged. -/
theorem c2_preamble_strip (s : Str) :
    (containsSub s ("NordVPN".data) = true →
      parse_output s = (dropThroughDot s).map takeUntilDot) ∧
    (containsSub s ("NordVPN".data) = false → parse_output s = some s) := by
  constructor
  · intro hc
    unfold parse_output
    rw [if_pos hc]
    exact splitOnF_dot_get1 s.length s (Nat.le_refl _)
  · intro hc
    unfold parse_output
    rw [if_neg (by simp [hc])]

/-- C2 witness: a concrete banner-prefixed text is stripped to the
content between the first "." and the end. -/
theorem c2_preamble_strip_witness :
    parse_output ("NordVPN. Countries: PL, DE".data)
      = (dropThroughDot ("NordVPN. Countries: PL, DE".data)).map takeUntilDot :=
  (c2_preamble_strip _).1 (by decide)

end NordTui
